import Mathlib

/-
A shallow embedding of the QuixDB storage engine (src/QuixDB.py).

Modelling conventions:
* Python dicts are insertion-ordered association lists `List (String × α)`
  with unique keys; `dget?` is `dict.get`, `dset` is `dict[k] = v`
  (replacing in place on an existing key, appending on a new key) and
  `ddel` is `del dict[k]`.
* Every column value the engine stores is a Python string, because
  `Table.insert` and `Table.update` pass every value through `str(...)`.
  Caller-supplied values are modelled by `Value` (string or int) and the
  coercion by `pyStr`.
* A record keeps its data dict and the `__meta__` timestamps separately
  (`Record.created`, `Record.updated`); the source stores the meta dict
  under the reserved key `"__meta__"` inside the row dict.
* The per-table NDJSON shard files are modelled as a single append-only
  list of log entries (the `shards = 1` configuration, which the source
  permits via `max(1, int(shards))`); `Table._load_all` then replays the
  entries in exactly the order they were written.
* Timestamps (`time.time()`) and fresh record ids (`uuid.uuid4().hex`)
  are modelled by the monotone counters `nextTs` and `nextRid`.
* A write that raises `IOError` is modelled by an `okFlag`/`okFn`
  parameter; a failed write appends nothing to the log (the replay in
  the source skips lines that do not parse as JSON).
* The mtime-based cross-process cache invalidation and the thread lock
  are not modelled: all operations here act on the quiescent
  single-process state, which is what the claims are about.
-/

namespace QuixDB

/-- A caller-supplied column value: either a Python string or int. -/
inductive Value where
  | vStr (s : String)
  | vInt (n : Int)
  deriving DecidableEq

/-- Python `str(v)` on the supported values. -/
def pyStr : Value → String
  | .vStr s => s
  | .vInt n => toString n

/-- `dict.get k` on an association list (first binding wins). -/
def dget? {α : Type} : List (String × α) → String → Option α
  | [], _ => none
  | (k', v) :: rest, k => if k' = k then some v else dget? rest k

/-- `dict.get k default`. -/
def dgetD {α : Type} (d : List (String × α)) (k : String) (dflt : α) : α :=
  (dget? d k).getD dflt

/-- `dict[k] = v`: replace in place if the key exists, else append. -/
def dset {α : Type} : List (String × α) → String → α → List (String × α)
  | [], k, v => [(k, v)]
  | (k', v') :: rest, k, v =>
      if k' = k then (k, v) :: rest else (k', v') :: dset rest k v

/-- `del dict[k]`: drop the (unique) binding of `k`. -/
def ddel {α : Type} : List (String × α) → String → List (String × α)
  | [], _ => []
  | (k', v') :: rest, k => if k' = k then rest else (k', v') :: ddel rest k

/-- One stored record: the row data dict plus its `__meta__` timestamps. -/
structure Record where
  data : List (String × String)
  created : Nat
  updated : Option Nat
  deriving DecidableEq

/-- One NDJSON line appended to a shard file
(`{"__op__": ..., "id": rid, "data": ..., "__ts__": ts}`). -/
inductive LogEntry where
  | ins (rid : String) (data : List (String × String)) (ts : Nat)
  | upd (rid : String) (data : List (String × String)) (ts : Nat)
  | del (rid : String) (ts : Nat)
  deriving DecidableEq

/-- The in-memory state of one `Table`: schema column names (every
declared type is `"str"`), the unique column list, `_cache`,
`_unique_index` (per unique column, a dict value → record id), the
persisted log, and the freshness counters. -/
structure TableState where
  schema : List String
  unique : List String
  cache : List (String × Record)
  uidx : List (String × List (String × String))
  log : List LogEntry
  nextRid : Nat
  nextTs : Nat
  deriving DecidableEq

/-- A freshly created table: empty cache, `{col: {} for col in unique}`
unique index, empty log. -/
def initTable (schema unique : List String) : TableState :=
  ⟨schema, unique, [], unique.map (fun c => (c, [])), [], 0, 0⟩

/-- `self._unique_index[col]`. -/
def idxFor (st : TableState) (col : String) : List (String × String) :=
  dgetD st.uidx col []

/-- `row = {k: str(data.get(k, "")) for k in self.schema.keys()}`. -/
def mkRow (schema : List String) (data : List (String × Value)) :
    List (String × String) :=
  schema.map (fun k => (k, pyStr (dgetD data k (Value.vStr ""))))

/-- `Table._check_unique_constraints(row, exclude_id)`: fails when some
unique column of `row` has a value already bound in the index to a
record id other than `excludeId`. -/
def checkUnique (st : TableState) (row : List (String × String))
    (excludeId : Option String) : Bool :=
  st.unique.all fun col =>
    match dget? row col with
    | none => true
    | some v =>
        match dget? (idxFor st col) v with
        | none => true
        | some owner =>
            match excludeId with
            | none => false
            | some ex => owner == ex

/-- The fresh record id issued when `nextRid = n` (models `uuid4().hex`). -/
def ridOf (n : Nat) : String := "r" ++ toString n

/-- `Table.insert(data)`: build the stringified row, reject on a unique
conflict (returning `None`), append the log entry (a failing write also
returns `None` and leaves everything unchanged), then update cache and
index. -/
def insertOp (st : TableState) (data : List (String × Value))
    (okFlag : Bool) : Option String × TableState :=
  let row := mkRow st.schema data
  if checkUnique st row none then
    if okFlag then
      let rid := ridOf st.nextRid
      let ts := st.nextTs
      let uidx1 := st.unique.foldl (fun acc col =>
        dset acc col (dset (dgetD acc col []) (dgetD row col "") rid)) st.uidx
      (some rid,
        { st with
          cache := dset st.cache rid ⟨row, ts, none⟩
          uidx := uidx1
          log := st.log ++ [LogEntry.ins rid row ts]
          nextRid := st.nextRid + 1
          nextTs := st.nextTs + 1 })
    else (none, st)
  else (none, st)

/-- The where clause test used by select, update and delete:
`all(str(r.get(k, "")) == str(v) for k, v in where.items())`; a missing
where dict (`None`) matches every row. -/
def rowMatches (whereQ : Option (List (String × Value)))
    (row : List (String × String)) : Bool :=
  match whereQ with
  | none => true
  | some w => w.all fun kv => dgetD row kv.1 "" == pyStr kv.2

/-- `if limit and len(out) >= limit`: `None` and `0` are falsy. -/
def limitHit : Option Nat → Nat → Bool
  | none, _ => false
  | some 0, _ => false
  | some (n + 1), c => decide (n + 1 ≤ c)

/-- The select loop over `self._cache.items()`: collect each matching
row, stopping after the one that reaches `limit`. -/
def selectLoop (whereQ : Option (List (String × Value)))
    (lim : Option Nat) :
    List (String × Record) → Nat → List (List (String × String))
  | [], _ => []
  | kv :: rest, cnt =>
      if rowMatches whereQ kv.2.data then
        if limitHit lim (cnt + 1) then [kv.2.data]
        else kv.2.data :: selectLoop whereQ lim rest (cnt + 1)
      else selectLoop whereQ lim rest cnt

/-- `Table.select(where, limit)` (the `fields` projection is not
modelled); returns the matching row dicts without `__meta__`. -/
def selectOp (st : TableState) (whereQ : Option (List (String × Value)))
    (lim : Option Nat) : List (List (String × String)) :=
  selectLoop whereQ lim st.cache 0

/-- `{k: str(v) for k, v in data.items()}`. -/
def strChanges (changes : List (String × Value)) :
    List (String × String) :=
  changes.map (fun kv => (kv.1, pyStr kv.2))

/-- `row.update(ch)`: apply each binding of `ch` over `d` in order. -/
def mergeData (d : List (String × String))
    (ch : List (String × String)) : List (String × String) :=
  ch.foldl (fun acc kv => dset acc kv.1 kv.2) d

/-- The `to_update` / `to_delete` list: ids of the cached rows matching
the where clause, in cache (insertion) order. -/
def matchingRids (st : TableState)
    (whereQ : Option (List (String × Value))) : List String :=
  (st.cache.filter fun kv => rowMatches whereQ kv.2.data).map Prod.fst

/-- The pre-pass of `Table.update`: every target row, merged with the
stringified changes, must pass `_check_unique_constraints` with itself
excluded (the absent-id branch is unreachable: `to_update` ids come from
the cache). -/
def updPrecheck (st : TableState) (rids : List String)
    (ch : List (String × String)) : Bool :=
  rids.all fun rid =>
    match dget? st.cache rid with
    | none => true
    | some r => checkUnique st (mergeData r.data ch) (some rid)

/-- The write loop of `Table.update`: for each target id, skip it when
the append raises `IOError`, otherwise append the log entry, drop the
old unique values owned by the id, merge the changes into the cached
row, stamp `updated`, and re-index the new unique values. -/
def updPerform (okFn : String → Bool) (ch : List (String × String)) :
    List String → TableState → Nat → TableState × Nat
  | [], st, cnt => (st, cnt)
  | rid :: rest, st, cnt =>
      if okFn rid then
        match dget? st.cache rid with
        | none => updPerform okFn ch rest st cnt
        | some oldR =>
            let ts := st.nextTs
            let idxA := st.unique.foldl (fun acc col =>
                let oldVal := dgetD oldR.data col ""
                if dget? (dgetD acc col []) oldVal = some rid then
                  dset acc col (ddel (dgetD acc col []) oldVal)
                else acc) st.uidx
            let newData := mergeData oldR.data ch
            let idxB := st.unique.foldl (fun acc col =>
                dset acc col
                  (dset (dgetD acc col []) (dgetD newData col "") rid)) idxA
            let st1 := { st with
              cache := dset st.cache rid ⟨newData, oldR.created, some ts⟩
              uidx := idxB
              log := st.log ++ [LogEntry.upd rid ch ts]
              nextTs := st.nextTs + 1 }
            updPerform okFn ch rest st1 (cnt + 1)
      else updPerform okFn ch rest st cnt

/-- `Table.update(where, data)`: returns the number of records written. -/
def updateOp (st : TableState) (whereQ : Option (List (String × Value)))
    (changes : List (String × Value)) (okFn : String → Bool) :
    Nat × TableState :=
  if changes.isEmpty then (0, st)
  else
    let ch := strChanges changes
    let rids := matchingRids st whereQ
    if updPrecheck st rids ch then
      let p := updPerform okFn ch rids st 0
      (p.2, p.1)
    else (0, st)

/-- The write loop of `Table.delete`: skip an id whose append fails,
otherwise log the delete entry, drop the unique values owned by the id
and remove it from the cache. -/
def delPerform (okFn : String → Bool) :
    List String → TableState → Nat → TableState × Nat
  | [], st, cnt => (st, cnt)
  | rid :: rest, st, cnt =>
      if okFn rid then
        match dget? st.cache rid with
        | none => delPerform okFn rest st cnt
        | some r =>
            let idxA := st.unique.foldl (fun acc col =>
                let v := dgetD r.data col ""
                if dget? (dgetD acc col []) v = some rid then
                  dset acc col (ddel (dgetD acc col []) v)
                else acc) st.uidx
            let st1 := { st with
              cache := ddel st.cache rid
              uidx := idxA
              log := st.log ++ [LogEntry.del rid st.nextTs]
              nextTs := st.nextTs + 1 }
            delPerform okFn rest st1 (cnt + 1)
      else delPerform okFn rest st cnt

/-- `Table.delete(where)`. -/
def deleteOp (st : TableState) (whereQ : Option (List (String × Value)))
    (okFn : String → Bool) : Nat × TableState :=
  let p := delPerform okFn (matchingRids st whereQ) st 0
  (p.2, p.1)

/-- The unique-column loop of the `insert` branch of `Table._load_all`:
for each unique column of the freshly replayed record, either claim the
value in the rebuilt index, or resolve a conflict by timestamp — the
newer record survives, the other is deleted from `records` (deleting the
incoming record stops the loop, the `break` in the source). The
`records[rid]` miss branch mirrors where the source would raise
`KeyError`; it is unreachable for logs produced by the operations here
(record ids are fresh). -/
def loadInsertCols (ts : Nat) (rid : String) :
    List String →
    List (String × Record) × List (String × List (String × String)) →
    List (String × Record) × List (String × List (String × String))
  | [], acc => acc
  | col :: rest, (recs, idx) =>
      match dget? recs rid with
      | none => (recs, idx)
      | some r =>
          let v := dgetD r.data col ""
          match dget? (dgetD idx col []) v with
          | none =>
              loadInsertCols ts rid rest
                (recs, dset idx col (dset (dgetD idx col []) v rid))
          | some orid =>
              let oldCreated := ((dget? recs orid).map Record.created).getD 0
              if oldCreated < ts then
                loadInsertCols ts rid rest
                  (ddel recs orid,
                   dset idx col (dset (dgetD idx col []) v rid))
              else (ddel recs rid, idx)

/-- The `can_update` test of the `update` branch of `Table._load_all`:
for every unique column whose new value differs from the current one,
the new value must not be indexed to a different record id. -/
def loadUpdOk (unique : List String)
    (idx : List (String × List (String × String))) (rid : String)
    (r : Record) (data : List (String × String)) : Bool :=
  unique.all fun col =>
    match dget? data col with
    | none => true
    | some nv =>
        if dget? r.data col = some nv then true
        else
          match dget? (dgetD idx col []) nv with
          | none => true
          | some owner => owner == rid

/-- Applying a replayed update: drop the old unique values owned by the
id (`records[rid].get(col)`, no default), merge the logged data into the
record, stamp `updated`, then re-index the new unique values
(`records[rid].get(col, "")`). -/
def loadApplyUpd (unique : List String)
    (recs : List (String × Record))
    (idx : List (String × List (String × String)))
    (rid : String) (r : Record) (data : List (String × String))
    (ts : Nat) :
    List (String × Record) × List (String × List (String × String)) :=
  let idx1 := unique.foldl (fun acc col =>
      match dget? r.data col with
      | none => acc
      | some ov =>
          if dget? (dgetD acc col []) ov = some rid then
            dset acc col (ddel (dgetD acc col []) ov)
          else acc) idx
  let newData := mergeData r.data data
  let idx2 := unique.foldl (fun acc col =>
      dset acc col
        (dset (dgetD acc col []) (dgetD newData col "") rid)) idx1
  (dset recs rid ⟨newData, r.created, some ts⟩, idx2)

/-- Applying a replayed delete: drop the unique values owned by the id
and remove the record. -/
def loadApplyDel (unique : List String)
    (recs : List (String × Record))
    (idx : List (String × List (String × String)))
    (rid : String) (r : Record) :
    List (String × Record) × List (String × List (String × String)) :=
  let idx1 := unique.foldl (fun acc col =>
      let v := dgetD r.data col ""
      if dget? (dgetD acc col []) v = some rid then
        dset acc col (ddel (dgetD acc col []) v)
      else acc) idx
  (ddel recs rid, idx1)

/-- One replayed log line of `Table._load_all`: an update or delete for
an id absent from `records` is skipped. -/
def loadStep (unique : List String)
    (acc : List (String × Record) × List (String × List (String × String)))
    (e : LogEntry) :
    List (String × Record) × List (String × List (String × String)) :=
  match e with
  | .ins rid data ts =>
      loadInsertCols ts rid unique (dset acc.1 rid ⟨data, ts, none⟩, acc.2)
  | .upd rid data ts =>
      match dget? acc.1 rid with
      | none => acc
      | some r =>
          if loadUpdOk unique acc.2 rid r data then
            loadApplyUpd unique acc.1 acc.2 rid r data ts
          else acc
  | .del rid _ =>
      match dget? acc.1 rid with
      | none => acc
      | some r => loadApplyDel unique acc.1 acc.2 rid r

/-- `Table._load_all()`: rebuild `(records, unique_index)` by one scan
of the persisted log (`Table._ensure_cache` installs exactly this pair
as the cache on reopen). -/
def loadAll (unique : List String) (log : List LogEntry) :
    List (String × Record) × List (String × List (String × String)) :=
  log.foldl (loadStep unique) ([], unique.map fun c => (c, []))

/-- The database root: its named tables (`QuixDB._tables`). -/
structure DBState where
  tables : List (String × TableState)
  deriving DecidableEq

/-- `QuixDB.create_table(name, columns, unique)`: a silent no-op when
the name already exists, otherwise a fresh table whose schema is the
column names (every declared type becomes `"str"`). -/
def createTable (db : DBState) (name : String) (columns : List String)
    (unique : List String) : DBState :=
  if (dget? db.tables name).isSome then db
  else ⟨dset db.tables name (initTable columns unique)⟩

/-- No two (distinct) cached rows agree on column `col`
(values read with the `get(col, "")` default the engine itself uses). -/
def distinctOnCol (col : String) : List (String × Record) → Bool
  | [] => true
  | kv :: rest =>
      (rest.all fun kv2 =>
        !(dgetD kv2.2.data col "" == dgetD kv.2.data col "")) &&
      distinctOnCol col rest

/-- The uniqueness invariant of the spec: no two distinct live (cached)
rows share a value on any unique column. -/
def noDupLive (st : TableState) : Bool :=
  st.unique.all fun col => distinctOnCol col st.cache

/-- Index coverage: every cached row's value on every unique column is
present as a key of that column's unique index. Holds for every state
the engine builds; used as the consistency hypothesis below. -/
def idxCoversCache (st : TableState) : Bool :=
  st.unique.all fun col => st.cache.all fun kv =>
    (dget? (idxFor st col) (dgetD kv.2.data col "")).isSome

/-- Truncation by a Python-truthy limit: `None` and `0` keep everything,
a positive `n` keeps the first `n` elements. -/
def limitTake {α : Type} : Option Nat → List α → List α
  | none, l => l
  | some 0, l => l
  | some (n + 1), l => l.take (n + 1)

/-! Concrete runs used by the theorems below.

The two-row table `demoT2` holds `{C: "1", N: "a"}` and `{C: "2", N: "b"}`
with `C` unique; `demoUpd` then runs
`update(where=None, data={C: "9"})`, which matches both rows. -/

def demoT0 : TableState := initTable ["C", "N"] ["C"]

def demoIns1 : Option String × TableState :=
  insertOp demoT0 [("C", Value.vStr "1"), ("N", Value.vStr "a")] true

def demoT1 : TableState := demoIns1.2

def demoIns2 : Option String × TableState :=
  insertOp demoT1 [("C", Value.vStr "2"), ("N", Value.vStr "b")] true

def demoT2 : TableState := demoIns2.2

def demoUpd : Nat × TableState :=
  updateOp demoT2 none [("C", Value.vStr "9")] (fun _ => true)

def demoT3 : TableState := demoUpd.2

/-! Further concrete scenarios used by the claim theorems. -/

/-- Scenario S1 table: `{Email: string unique, Name: string}` after
inserting `{Email: "a@x", Name: "A"}`. -/
def s1T1 : TableState :=
  (insertOp (initTable ["Email", "Name"] ["Email"])
    [("Email", Value.vStr "a@x"), ("Name", Value.vStr "A")] true).2

/-- The conflicting second insert of S1. -/
def s1Ins2 : Option String × TableState :=
  insertOp s1T1 [("Email", Value.vStr "a@x"), ("Name", Value.vStr "B")] true

/-- A table with an int-typed caller value: `{Id: -1, N: "x"}` with `Id`
unique, after one insert. -/
def c4T1 : TableState :=
  (insertOp (initTable ["Id", "N"] ["Id"])
    [("Id", Value.vInt (-1)), ("N", Value.vStr "x")] true).2

/-- Insert into schema `{A, B}` supplying only column A. -/
def c8Ins : Option String × TableState :=
  insertOp (initTable ["A", "B"] []) [("A", Value.vStr "x")] true

/-- A database after `create_table("t", {A})`. -/
def c9db1 : DBState := createTable ⟨[]⟩ "t" ["A"] []

/-- A table `{Id}` with `Id` unique after inserting the int `1`. -/
def c10T1 : TableState :=
  (insertOp (initTable ["Id"] ["Id"]) [("Id", Value.vInt 1)] true).2

/-- An append oracle that fails exactly for record `"r0"`. -/
def c7ok : String → Bool := fun s => s == "r1"

/-- `update(where=None, data={N: "z"})` on the two-row table when the
append for the first target fails with an I/O error. -/
def c7Upd : Nat × TableState :=
  updateOp demoT2 none [("N", Value.vStr "z")] c7ok

/-- The unique-index transformation performed by one successful update
write (remove the old values owned by the id, then index the merged
values); names the index built inside `updPerform`. -/
def updIdx (st : TableState) (r : Record) (rid : String)
    (ch : List (String × String)) :
    List (String × List (String × String)) :=
  st.unique.foldl (fun acc col =>
      dset acc col
        (dset (dgetD acc col []) (dgetD (mergeData r.data ch) col "") rid))
    (st.unique.foldl (fun acc col =>
        let oldVal := dgetD r.data col ""
        if dget? (dgetD acc col []) oldVal = some rid then
          dset acc col (ddel (dgetD acc col []) oldVal)
        else acc) st.uidx)

/-! Association-list lemmas. -/

theorem dget?_dset_self {α : Type} (d : List (String × α)) (k : String)
    (v : α) : dget? (dset d k v) k = some v := by
  induction d with
  | nil => simp [dget?, dset]
  | cons kv rest ih =>
      by_cases h : kv.1 = k
      · simp [dset, h, dget?]
      · simp [dset, h, dget?, ih]

theorem dget?_dset_of_ne {α : Type} (d : List (String × α))
    (k k' : String) (v : α) (h : k' ≠ k) :
    dget? (dset d k v) k' = dget? d k' := by
  have hk : ¬ k = k' := fun hh => h hh.symm
  induction d with
  | nil => simp [dget?, dset, hk]
  | cons kv rest ih =>
      obtain ⟨k1, v1⟩ := kv
      by_cases h1 : k1 = k
      · have h2 : ¬ k1 = k' := by rw [h1]; exact hk
        simp [dset, h1, dget?, hk, h2]
      · simp [dset, h1, dget?, ih]

theorem dget?_eq_none_of_not_mem {α : Type} (d : List (String × α))
    (k : String) (h : k ∉ d.map Prod.fst) : dget? d k = none := by
  induction d with
  | nil => rfl
  | cons kv rest ih =>
      obtain ⟨k1, v1⟩ := kv
      simp only [List.map_cons, List.mem_cons] at h
      push_neg at h
      have h1 : ¬ k1 = k := fun hh => h.1 hh.symm
      simp [dget?, h1, ih h.2]

theorem not_mem_of_dget?_eq_none {α : Type} (d : List (String × α))
    (k : String) (h : dget? d k = none) : k ∉ d.map Prod.fst := by
  induction d with
  | nil => simp
  | cons kv rest ih =>
      obtain ⟨k1, v1⟩ := kv
      by_cases h1 : k1 = k
      · simp [dget?, h1] at h
      · simp only [dget?, h1, if_false] at h
        simp only [List.map_cons, List.mem_cons]
        push_neg
        exact ⟨fun hh => h1 hh.symm, ih h⟩

theorem dget?_mkRow_of_mem (schema : List String)
    (data : List (String × Value)) (col : String) (h : col ∈ schema) :
    dget? (mkRow schema data) col =
      some (pyStr (dgetD data col (Value.vStr ""))) := by
  induction schema with
  | nil => cases h
  | cons k rest ih =>
      rcases List.mem_cons.mp h with h1 | h1
      · simp [mkRow, dget?, h1]
      · by_cases h2 : k = col
        · simp [mkRow, dget?, h2]
        · simpa [mkRow, dget?, h2] using ih h1

theorem dget?_mergeData_of_none (d : List (String × String))
    (ch : List (String × String)) (k : String)
    (h : dget? ch k = none) :
    dget? (mergeData d ch) k = dget? d k := by
  induction ch generalizing d with
  | nil => rfl
  | cons kv rest ih =>
      by_cases h1 : kv.1 = k
      · simp [dget?, h1] at h
      · simp only [dget?, h1, if_false] at h
        rw [mergeData, List.foldl_cons]
        rw [show (List.foldl (fun acc kv => dset acc kv.1 kv.2)
              (dset d kv.1 kv.2) rest) =
            mergeData (dset d kv.1 kv.2) rest from rfl]
        rw [ih _ h, dget?_dset_of_ne _ _ _ _ (fun hh => h1 hh.symm)]

theorem dget?_mergeData_of_some (d : List (String × String))
    (ch : List (String × String)) (k : String) (v : String)
    (hnd : (ch.map Prod.fst).Nodup) (h : dget? ch k = some v) :
    dget? (mergeData d ch) k = some v := by
  induction ch generalizing d with
  | nil => simp [dget?] at h
  | cons kv rest ih =>
      simp only [List.map_cons, List.nodup_cons] at hnd
      by_cases h1 : kv.1 = k
      · simp only [dget?, h1, if_true, Option.some.injEq] at h
        rw [mergeData, List.foldl_cons]
        rw [show (List.foldl (fun acc kv => dset acc kv.1 kv.2)
              (dset d kv.1 kv.2) rest) =
            mergeData (dset d kv.1 kv.2) rest from rfl]
        have hrest : dget? rest k = none := by
          apply dget?_eq_none_of_not_mem
          rw [← h1]; exact hnd.1
        rw [dget?_mergeData_of_none _ _ _ hrest, h1, h,
          dget?_dset_self]
      · simp only [dget?, h1, if_false] at h
        rw [mergeData, List.foldl_cons]
        rw [show (List.foldl (fun acc kv => dset acc kv.1 kv.2)
              (dset d kv.1 kv.2) rest) =
            mergeData (dset d kv.1 kv.2) rest from rfl]
        exact ih (dset d kv.1 kv.2) hnd.2 h

theorem all_eq_false_of_mem {α : Type} (l : List α) (p : α → Bool)
    (x : α) (hx : x ∈ l) (hp : p x = false) : l.all p = false := by
  induction l with
  | nil => cases hx
  | cons y rest ih =>
      rcases List.mem_cons.mp hx with h | h
      · simp [List.all_cons, ← h, hp]
      · simp [List.all_cons, ih h]

/-! The claims. -/

/-- C1 (code bug, shown at the failing input): with unique column `C`,
after inserting `{C: "1"}` and `{C: "2"}` the uniqueness invariant
holds; the multi-row `update(where=None, data={C: "9"})` then reports 2
written records and leaves two distinct live rows sharing the value
`"9"` on `C` — the per-target unique pre-check of `Table.update`
consults only the pre-update index, so a batch update writing one fresh
unique value to several rows violates the invariant the claim states. -/
theorem c1_unique_invariant_bug :
    noDupLive demoT2 = true ∧ demoUpd.1 = 2 ∧ noDupLive demoT3 = false := by
  exact ⟨by decide, by decide, by decide⟩

/-- C2 (code bug, shown at the failing input): after the same batch
update, replaying the persisted log with `Table._load_all` yields a
records map and a unique index both different from the in-memory cache
and index: the replay refuses the second logged update (its value `"9"`
is by then indexed to the first record), while the live update applied
it. -/
theorem c2_reopen_bug :
    (loadAll ["C"] demoT3.log).1 ≠ demoT3.cache ∧
    (loadAll ["C"] demoT3.log).2 ≠ demoT3.uidx := by
  exact ⟨by decide, by decide⟩

/-- C5 counterexample: a select with no limit over the two-row table
returns both rows, so a single select call can return more than one
row, contrary to the claim. -/
theorem c5_counterexample :
    ¬ (selectOp demoT2 none none).length ≤ 1 := by decide

/-- C8 counterexample: inserting a row that omits the declared column
`B` is accepted (it returns a fresh record id, no failure), and the
stored row silently carries the default value `""` for `B`. -/
theorem c8_counterexample :
    c8Ins.1 = some "r0" ∧
    dget? c8Ins.2.cache "r0" = some ⟨[("A", "x"), ("B", "")], 0, none⟩ := by
  exact ⟨by decide, by decide⟩

/-- C9 counterexample: calling `create_table` again for the existing
name `"t"` with different columns `{A, B}` neither fails with a schema
conflict nor changes anything — the call is a silent no-op and the
table keeps its original schema `{A}`. -/
theorem c9_counterexample :
    createTable c9db1 "t" ["A", "B"] [] = c9db1 ∧
    (dget? c9db1.tables "t").map TableState.schema = some ["A"] := by
  exact ⟨by decide, by decide⟩

/-- C4 counterexample: inserting the int value `-1` and selecting it
back returns the string `"-1"` (the `str(...)` form), not an int: the
typed round trip the claim states fails for int values. -/
theorem c4_counterexample :
    selectOp c4T1 (some [("Id", Value.vInt (-1))]) none =
      [[("Id", "-1"), ("N", "x")]] ∧
    Value.vStr "-1" ≠ Value.vInt (-1) := by
  exact ⟨by decide, by decide⟩

theorem dget?_strChanges (changes : List (String × Value)) (k : String) :
    dget? (strChanges changes) k = (dget? changes k).map pyStr := by
  induction changes with
  | nil => rfl
  | cons kv rest ih =>
      rw [show strChanges (kv :: rest) =
        (kv.1, pyStr kv.2) :: strChanges rest from rfl]
      by_cases h : kv.1 = k
      · simp [dget?, h]
      · simp [dget?, h, ih]

theorem strChanges_keys (changes : List (String × Value)) :
    (strChanges changes).map Prod.fst = changes.map Prod.fst := by
  induction changes with
  | nil => rfl
  | cons kv rest ih => simp [strChanges, ih] at ih ⊢

/-- One successful step of the update write loop on a single target. -/
theorem updPerform_single (okFn : String → Bool)
    (ch : List (String × String)) (rid : String) (st : TableState)
    (cnt : Nat) (r : Record) (hok : okFn rid = true)
    (hr : dget? st.cache rid = some r) :
    updPerform okFn ch [rid] st cnt =
      ({ st with
          cache := dset st.cache rid
            ⟨mergeData r.data ch, r.created, some st.nextTs⟩
          uidx := updIdx st r rid ch
          log := st.log ++ [LogEntry.upd rid ch st.nextTs]
          nextTs := st.nextTs + 1 }, cnt + 1) := by
  simp [updPerform, hok, hr, updIdx]

/-- C3: inserting a row whose stringified unique-column value equals
that of an already-stored live row (the unique index covering the
cache, as the engine maintains it) is rejected: insert returns the
failure value `none` and the whole state is unchanged. In scenario S1,
the conflicting second insert is rejected and the subsequent select on
the unique value returns the originally inserted row. -/
theorem c3_duplicate_insert_rejected (st : TableState)
    (data : List (String × Value)) (col rid : String) (r : Record)
    (hcov : idxCoversCache st = true)
    (hcol : col ∈ st.unique) (hsch : col ∈ st.schema)
    (hmem : (rid, r) ∈ st.cache)
    (hval : pyStr (dgetD data col (Value.vStr "")) = dgetD r.data col "") :
    insertOp st data true = (none, st) ∧
    (s1Ins2.1 = none ∧ s1Ins2.2 = s1T1 ∧
      selectOp s1Ins2.2 (some [("Email", Value.vStr "a@x")]) none =
        [[("Email", "a@x"), ("Name", "A")]]) := by
  refine ⟨?_, by decide, by decide, by decide⟩
  have hrow : dget? (mkRow st.schema data) col =
      some (pyStr (dgetD data col (Value.vStr ""))) :=
    dget?_mkRow_of_mem _ _ _ hsch
  simp only [idxCoversCache, List.all_eq_true] at hcov
  have hsome := hcov col hcol (rid, r) hmem
  rw [Option.isSome_iff_exists] at hsome
  obtain ⟨owner, howner⟩ := hsome
  have howner1 : dget? (idxFor st col) (dgetD r.data col "") = some owner :=
    howner
  have hchk : checkUnique st (mkRow st.schema data) none = false := by
    simp only [checkUnique]
    apply all_eq_false_of_mem _ _ col hcol
    simp only [hrow, hval, howner1]
  simp [insertOp, hchk]

/-- C3 witness: the general rejection applied to scenario S1. -/
theorem c3_duplicate_insert_rejected_witness :
    (idxCoversCache s1T1 = true ∧ "Email" ∈ s1T1.unique ∧
      "Email" ∈ s1T1.schema ∧
      ("r0", (⟨[("Email", "a@x"), ("Name", "A")], 0, none⟩ : Record)) ∈
        s1T1.cache) ∧
    insertOp s1T1
      [("Email", Value.vStr "a@x"), ("Name", Value.vStr "B")] true =
      (none, s1T1) := by
  refine ⟨⟨by decide, by decide, by decide, by decide⟩, ?_⟩
  exact (c3_duplicate_insert_rejected s1T1
    [("Email", Value.vStr "a@x"), ("Name", Value.vStr "B")]
    "Email" "r0" ⟨[("Email", "a@x"), ("Name", "A")], 0, none⟩
    (by decide) (by decide) (by decide) (by decide) (by decide)).1

/-- C7 counterexample: `update(where=None, data={N: "z"})` over two
matching rows, where the append for the first target fails with an I/O
error, does not abort and reports no I/O failure: it returns the count
1, leaves the failed record untouched, and still modifies the second
record. -/
theorem c7_counterexample :
    c7Upd.1 = 1 ∧
    dget? c7Upd.2.cache "r1" ≠ dget? demoT2.cache "r1" ∧
    dget? c7Upd.2.cache "r0" = dget? demoT2.cache "r0" := by
  exact ⟨by decide, by decide, by decide⟩

/-- C7 amended: a failed append leaves the failed record out of the
cache, index and count — an insert whose append fails returns `none`
with the state unchanged, and a single-target update or delete whose
append fails returns 0 with the state unchanged (multi-target
operations continue with the remaining records instead of aborting,
and no dedicated I/O error value is surfaced). -/
theorem c7_amended :
    (∀ st data, insertOp st data false = (none, st)) ∧
    (∀ st w changes okFn rid, matchingRids st w = [rid] →
      okFn rid = false → updateOp st w changes okFn = (0, st)) ∧
    (∀ st w okFn rid, matchingRids st w = [rid] →
      okFn rid = false → deleteOp st w okFn = (0, st)) := by
  refine ⟨?_, ?_, ?_⟩
  · intro st data
    by_cases hc : checkUnique st (mkRow st.schema data) none <;>
      simp [insertOp, hc]
  · intro st w changes okFn rid hm hok
    by_cases he : changes.isEmpty
    · simp [updateOp, he]
    · by_cases hpre : updPrecheck st [rid] (strChanges changes)
      · simp [updateOp, he, hm, hpre, updPerform, hok]
      · simp [updateOp, he, hm, hpre]
  · intro st w okFn rid hm hok
    simp [deleteOp, hm, delPerform, hok]

/-- C7 witness: the amended statement applied to concrete operations on
the two-row table. -/
theorem c7_amended_witness :
    insertOp demoT2 [("C", Value.vStr "5")] false = (none, demoT2) ∧
    (matchingRids demoT2 (some [("C", Value.vStr "1")]) = ["r0"] ∧
      updateOp demoT2 (some [("C", Value.vStr "1")])
        [("N", Value.vStr "z")] (fun _ => false) = (0, demoT2)) ∧
    (matchingRids demoT2 (some [("C", Value.vStr "1")]) = ["r0"] ∧
      deleteOp demoT2 (some [("C", Value.vStr "1")])
        (fun _ => false) = (0, demoT2)) := by
  refine ⟨c7_amended.1 demoT2 _, ⟨by decide, ?_⟩, ⟨by decide, ?_⟩⟩
  · exact c7_amended.2.1 demoT2 (some [("C", Value.vStr "1")])
      [("N", Value.vStr "z")] (fun _ => false) "r0" (by decide) rfl
  · exact c7_amended.2.2 demoT2 (some [("C", Value.vStr "1")])
      (fun _ => false) "r0" (by decide) rfl

/-- C8 amended: an insert whose row mapping omits a declared column is
not rejected — the missing column is silently completed with the empty
string, and (when no unique conflict interferes) the partial row is
stored, completed with that default. -/
theorem c8_amended (st : TableState) (data : List (String × Value))
    (col : String) (hcol : col ∈ st.schema)
    (hmiss : dget? data col = none) :
    dget? (mkRow st.schema data) col = some "" ∧
    (checkUnique st (mkRow st.schema data) none = true →
      (insertOp st data true).1 = some (ridOf st.nextRid) ∧
      dget? (insertOp st data true).2.cache (ridOf st.nextRid) =
        some ⟨mkRow st.schema data, st.nextTs, none⟩) := by
  constructor
  · rw [dget?_mkRow_of_mem _ _ _ hcol]
    simp [dgetD, hmiss, pyStr]
  · intro hchk
    constructor
    · simp [insertOp, hchk]
    · simp [insertOp, hchk, dget?_dset_self]

/-- C8 witness: the amended statement at the schema `{A, B}` insert that
supplies only `A`. -/
theorem c8_amended_witness :
    ("B" ∈ (initTable ["A", "B"] []).schema ∧
      dget? [("A", Value.vStr "x")] "B" = none ∧
      checkUnique (initTable ["A", "B"] [])
        (mkRow (initTable ["A", "B"] []).schema [("A", Value.vStr "x")])
        none = true) ∧
    dget? (mkRow (initTable ["A", "B"] []).schema
      [("A", Value.vStr "x")]) "B" = some "" := by
  refine ⟨⟨by decide, by decide, by decide⟩, ?_⟩
  exact (c8_amended (initTable ["A", "B"] []) [("A", Value.vStr "x")]
    "B" (by decide) (by decide)).1

/-- C9 amended: `create_table` on an existing table name is a silent
no-op whatever the columns and unique set are (so repeating the same
schema is idempotent, and a different schema neither fails nor changes
anything); only a call with a new name creates the table. -/
theorem c9_amended (db : DBState) (name : String)
    (columns uniqueCols : List String) :
    ((dget? db.tables name).isSome = true →
      createTable db name columns uniqueCols = db) ∧
    (dget? db.tables name = none →
      dget? (createTable db name columns uniqueCols).tables name =
        some (initTable columns uniqueCols)) := by
  constructor
  · intro h; simp [createTable, h]
  · intro h; simp [createTable, h, dget?_dset_self]

/-- C9 witness: the amended statement at the concrete database holding
table `t` (no-op case) and at the empty database (creation case). -/
theorem c9_amended_witness :
    ((dget? c9db1.tables "t").isSome = true ∧
      createTable c9db1 "t" ["A", "B"] [] = c9db1) ∧
    (dget? (DBState.mk []).tables "u" = none ∧
      dget? (createTable ⟨[]⟩ "u" ["A"] []).tables "u" =
        some (initTable ["A"] [])) := by
  refine ⟨⟨by decide, ?_⟩, by decide, ?_⟩
  · exact (c9_amended c9db1 "t" ["A", "B"] []).1 (by decide)
  · exact (c9_amended ⟨[]⟩ "u" ["A"] []).2 (by decide)

/-- C4 amended: every caller value is coerced to its Python string form
on insert — the stored (and hence selected) value for a supplied column
is `str(v)` — and the write-read round trip is the identity exactly on
string values. -/
theorem c4_amended :
    (∀ (st : TableState) (data : List (String × Value)) (col : String)
        (v : Value), col ∈ st.schema → dget? data col = some v →
      checkUnique st (mkRow st.schema data) none = true →
      ∃ r, dget? (insertOp st data true).2.cache (ridOf st.nextRid) =
          some r ∧ dget? r.data col = some (pyStr v)) ∧
    (∀ s, pyStr (Value.vStr s) = s) := by
  constructor
  · intro st data col v hcol hv hchk
    refine ⟨⟨mkRow st.schema data, st.nextTs, none⟩, ?_, ?_⟩
    · simp [insertOp, hchk, dget?_dset_self]
    · rw [dget?_mkRow_of_mem _ _ _ hcol]
      simp [dgetD, hv]
  · intro s; rfl

/-- C4 witness: the amended statement at the int insert of the
counterexample table. -/
theorem c4_amended_witness :
    ("Id" ∈ (initTable ["Id", "N"] ["Id"]).schema ∧
      dget? [("Id", Value.vInt (-1)), ("N", Value.vStr "x")] "Id" =
        some (Value.vInt (-1)) ∧
      checkUnique (initTable ["Id", "N"] ["Id"])
        (mkRow (initTable ["Id", "N"] ["Id"]).schema
          [("Id", Value.vInt (-1)), ("N", Value.vStr "x")]) none = true) ∧
    (∃ r, dget? c4T1.cache (ridOf 0) = some r ∧
      dget? r.data "Id" = some (pyStr (Value.vInt (-1)))) := by
  refine ⟨⟨by decide, by decide, by decide⟩, ?_⟩
  exact c4_amended.1 (initTable ["Id", "N"] ["Id"])
    [("Id", Value.vInt (-1)), ("N", Value.vStr "x")] "Id"
    (Value.vInt (-1)) (by decide) (by decide) (by decide)

theorem selectLoop_none_limit (w : Option (List (String × Value))) :
    ∀ (rows : List (String × Record)) (cnt : Nat),
      selectLoop w none rows cnt =
        (rows.filter fun kv => rowMatches w kv.2.data).map
          (fun kv => kv.2.data) := by
  intro rows
  induction rows with
  | nil => intro cnt; rfl
  | cons kv rest ih =>
      intro cnt
      by_cases h : rowMatches w kv.2.data
      · simp [selectLoop, h, limitHit, ih]
      · simp [selectLoop, h, ih]

theorem selectLoop_zero_limit (w : Option (List (String × Value))) :
    ∀ (rows : List (String × Record)) (cnt : Nat),
      selectLoop w (some 0) rows cnt =
        (rows.filter fun kv => rowMatches w kv.2.data).map
          (fun kv => kv.2.data) := by
  intro rows
  induction rows with
  | nil => intro cnt; rfl
  | cons kv rest ih =>
      intro cnt
      by_cases h : rowMatches w kv.2.data
      · simp [selectLoop, h, limitHit, ih]
      · simp [selectLoop, h, ih]

theorem selectLoop_pos_limit (w : Option (List (String × Value)))
    (n : Nat) :
    ∀ (rows : List (String × Record)) (cnt : Nat), cnt ≤ n →
      selectLoop w (some (n + 1)) rows cnt =
        ((rows.filter fun kv => rowMatches w kv.2.data).map
          (fun kv => kv.2.data)).take (n + 1 - cnt) := by
  intro rows
  induction rows with
  | nil => intro cnt h; simp [selectLoop]
  | cons kv rest ih =>
      intro cnt hcnt
      by_cases h : rowMatches w kv.2.data
      · by_cases hc : n ≤ cnt
        · have hceq : cnt = n := le_antisymm hcnt hc
          subst hceq
          have hhit : limitHit (some (cnt + 1)) (cnt + 1) = true := by
            simp [limitHit]
          have harith : cnt + 1 - cnt = 1 := by omega
          simp [selectLoop, h, hhit, harith]
        · push_neg at hc
          have h1 : cnt + 1 ≤ n := hc
          have hhit : limitHit (some (n + 1)) (cnt + 1) = false := by
            simp [limitHit]; omega
          have harith : n + 1 - cnt = (n + 1 - (cnt + 1)) + 1 := by omega
          simp [selectLoop, h, hhit, ih (cnt + 1) h1, harith,
            List.take_succ_cons]
      · simp [selectLoop, h, ih cnt hcnt]

/-- C5 amended: a select call returns the list of all cached rows (in
log/insertion order) whose columns satisfy every equality clause of the
where mapping, truncated to the first `limit` matches when limit is a
positive number (`None` and `0` impose no bound); so the first returned
row is the first match in log order, but without a limit every match is
returned, not at most one. -/
theorem c5_amended (st : TableState)
    (w : Option (List (String × Value))) (lim : Option Nat) :
    selectOp st w lim =
      limitTake lim ((st.cache.filter fun kv => rowMatches w kv.2.data).map
        (fun kv => kv.2.data)) := by
  match lim with
  | none => exact selectLoop_none_limit w st.cache 0
  | some 0 => exact selectLoop_zero_limit w st.cache 0
  | some (n + 1) =>
      have := selectLoop_pos_limit w n st.cache 0 (Nat.zero_le n)
      simpa [limitTake] using this

/-- C6: an update that locates exactly one target row behaves as the
claim states: when the merged row passes the unique check, the stored
row equals the target row with each column named in changes set to the
string form of its value from changes and every other column unchanged,
the count is 1, and no other record changes; the check passes whenever
every merged unique value is unindexed or owned by the target itself
(in particular for a same-key self-update); and an update whose merged
unique value is owned by a different live record returns 0 and leaves
the state unchanged. -/
theorem c6_update_merge_and_unique (st : TableState)
    (w : Option (List (String × Value)))
    (changes : List (String × Value)) (rid : String) (r : Record)
    (hm : matchingRids st w = [rid])
    (hr : dget? st.cache rid = some r)
    (hne : changes ≠ [])
    (hnd : (changes.map Prod.fst).Nodup) :
    (checkUnique st (mergeData r.data (strChanges changes))
        (some rid) = true →
      (updateOp st w changes (fun _ => true)).1 = 1 ∧
      dget? (updateOp st w changes (fun _ => true)).2.cache rid =
        some ⟨mergeData r.data (strChanges changes), r.created,
          some st.nextTs⟩ ∧
      (∀ k v, dget? changes k = some v →
        dget? (mergeData r.data (strChanges changes)) k =
          some (pyStr v)) ∧
      (∀ k, dget? changes k = none →
        dget? (mergeData r.data (strChanges changes)) k =
          dget? r.data k) ∧
      (∀ rid2, rid2 ≠ rid →
        dget? (updateOp st w changes (fun _ => true)).2.cache rid2 =
          dget? st.cache rid2)) ∧
    ((∀ col, col ∈ st.unique → ∀ v owner,
        dget? (mergeData r.data (strChanges changes)) col = some v →
        dget? (idxFor st col) v = some owner → owner = rid) →
      checkUnique st (mergeData r.data (strChanges changes))
        (some rid) = true) ∧
    (∀ col v owner, col ∈ st.unique →
      dget? (mergeData r.data (strChanges changes)) col = some v →
      dget? (idxFor st col) v = some owner → owner ≠ rid →
      updateOp st w changes (fun _ => true) = (0, st)) := by
  have hempty : changes.isEmpty = false := by
    cases changes with
    | nil => exact absurd rfl hne
    | cons a l => rfl
  refine ⟨?_, ?_, ?_⟩
  · intro hchk
    have hpre : updPrecheck st [rid] (strChanges changes) = true := by
      simp [updPrecheck, hr, hchk]
    have hrun : updateOp st w changes (fun _ => true) =
        (1, ({ st with
          cache := dset st.cache rid
            ⟨mergeData r.data (strChanges changes), r.created,
              some st.nextTs⟩
          uidx := updIdx st r rid (strChanges changes)
          log := st.log ++
            [LogEntry.upd rid (strChanges changes) st.nextTs]
          nextTs := st.nextTs + 1 } : TableState)) := by
      simp [updateOp, hempty, hm, hpre,
        updPerform_single (fun _ => true) (strChanges changes)
          rid st 0 r rfl hr]
    refine ⟨by rw [hrun], ?_, ?_, ?_, ?_⟩
    · rw [hrun]; exact dget?_dset_self _ _ _
    · intro k v hkv
      refine dget?_mergeData_of_some _ _ _ _ ?_ ?_
      · rw [strChanges_keys]; exact hnd
      · rw [dget?_strChanges, hkv]; rfl
    · intro k hk
      apply dget?_mergeData_of_none
      rw [dget?_strChanges, hk]; rfl
    · intro rid2 h2
      rw [hrun]
      exact dget?_dset_of_ne _ _ _ _ h2
  · intro hpt
    simp only [checkUnique]
    rw [List.all_eq_true]
    intro col hcolmem
    cases hmv : dget? (mergeData r.data (strChanges changes)) col with
    | none => simp [hmv]
    | some v =>
        cases hov : dget? (idxFor st col) v with
        | none => simp [hmv, hov]
        | some owner =>
            have howner : owner = rid := hpt col hcolmem v owner hmv hov
            simp [hmv, hov, howner]
  · intro col v owner hcolmem hmv hov hne2
    have hfalse : checkUnique st
        (mergeData r.data (strChanges changes)) (some rid) = false := by
      simp only [checkUnique]
      apply all_eq_false_of_mem _ _ col hcolmem
      simp only [hmv, hov]
      simp [hne2]
    have hpre : updPrecheck st [rid] (strChanges changes) = false := by
      simp [updPrecheck, hr, hfalse]
    simp [updateOp, hempty, hm, hpre]

/-- C6 witness: the single-target update of the S1 row that changes
only the non-unique column `Name` succeeds with count 1. -/
theorem c6_update_merge_and_unique_witness :
    (matchingRids s1T1 (some [("Email", Value.vStr "a@x")]) = ["r0"] ∧
      dget? s1T1.cache "r0" =
        some ⟨[("Email", "a@x"), ("Name", "A")], 0, none⟩) ∧
    (updateOp s1T1 (some [("Email", Value.vStr "a@x")])
      [("Name", Value.vStr "B2")] (fun _ => true)).1 = 1 := by
  refine ⟨⟨by decide, by decide⟩, ?_⟩
  exact ((c6_update_merge_and_unique s1T1
    (some [("Email", Value.vStr "a@x")]) [("Name", Value.vStr "B2")]
    "r0" ⟨[("Email", "a@x"), ("Name", "A")], 0, none⟩
    (by decide) (by decide) (by decide) (by decide)).1 (by decide)).1

/-- C10: the engine stores the string form of every supplied value and
compares string forms in where clauses: a singleton where clause holds
exactly when the stored string equals `str(v)`; an inserted column
holds `str(v)`; and concretely, after inserting the int `1`, selecting
where `Id` is the string `"1"` and where `Id` is the int `1` both
return the row, and a second insert with the (distinct) string value
`"1"` is identified with the stored int and rejected as a duplicate. -/
theorem c10_string_coercion :
    (∀ (row : List (String × String)) (k : String) (v : Value),
      rowMatches (some [(k, v)]) row = (dgetD row k "" == pyStr v)) ∧
    (∀ (st : TableState) (data : List (String × Value)) (col : String)
        (v : Value), col ∈ st.schema → dget? data col = some v →
      dget? (mkRow st.schema data) col = some (pyStr v)) ∧
    (selectOp c10T1 (some [("Id", Value.vStr "1")]) none =
        [[("Id", "1")]] ∧
      selectOp c10T1 (some [("Id", Value.vInt 1)]) none =
        [[("Id", "1")]] ∧
      (insertOp c10T1 [("Id", Value.vStr "1")] true).1 = none ∧
      Value.vInt 1 ≠ Value.vStr "1") := by
  refine ⟨?_, ?_, by decide, by decide, by decide, by decide⟩
  · intro row k v
    simp [rowMatches]
  · intro st data col v hcol hv
    rw [dget?_mkRow_of_mem _ _ _ hcol]
    simp [dgetD, hv]

/-- C10 witness: the stored-form statement at a concrete insert. -/
theorem c10_string_coercion_witness :
    ("Id" ∈ c10T1.schema ∧
      dget? [("Id", Value.vStr "2")] "Id" = some (Value.vStr "2")) ∧
    dget? (mkRow c10T1.schema [("Id", Value.vStr "2")]) "Id" =
      some (pyStr (Value.vStr "2")) := by
  refine ⟨⟨by decide, by decide⟩, ?_⟩
  exact c10_string_coercion.2.1 c10T1 [("Id", Value.vStr "2")] "Id"
    (Value.vStr "2") (by decide) (by decide)

end QuixDB
